import Mathlib

/-!
Shallow embedding of the ddp-dump utility (src/index.js) and verification
of its specification.  JavaScript strings are Lean strings, objects with
string keys are association lists with unique keys, timestamps are natural
numbers of milliseconds, and process.exit together with the error paths of
the option processing are modelled with Except.
-/

namespace DdpDump

/-- Output channel of a logging call in src/index.js: `info` wraps
console.log but is replaced by a no-op when the verbose option is not set
(lines 335-338), `err` is console.error (always printed), and `plain` is a
direct console.log call (always printed). -/
inductive Level where
  | info
  | err
  | plain
deriving DecidableEq, Repr

/-- A logging call: the channel it goes through and the formatted text. -/
abbrev LogEntry := Level × String

/-- Decimal rendering used to model the JavaScript Number() coercion that
node's util.format applies for a %d specifier: the empty (trimmed) string
coerces to 0, an unsigned decimal integer to itself, anything else to NaN.
Other numeric syntaxes of Number() are not exercised by this program and
are rendered as NaN here; no theorem below depends on the %d branch. -/
def jsNumberString (s : String) : String :=
  let t := s.trim
  if t = "" then "0"
  else if t.data.all (fun c => c.isDigit) then
    toString (t.data.foldl (fun n c => n * 10 + (c.toNat - 48)) 0)
  else "NaN"

/-- Escaping of one character as done by JSON.stringify on strings; used to
model the %j specifier of util.format, which no theorem below exercises. -/
def jsonEscapeChar (c : Char) : List Char :=
  if c = '"' then ['\\', '"']
  else if c = '\\' then ['\\', '\\']
  else if c = '\n' then ['\\', 'n']
  else if c = '\t' then ['\\', 't']
  else if c = '\r' then ['\\', 'r']
  else [c]

/-- Model of JSON.stringify applied to a string argument. -/
def jsonQuote (s : String) : String :=
  ⟨'"' :: s.data.foldr (fun c acc => jsonEscapeChar c ++ acc) ['"']⟩

/-- Model of node util.format's substitution pass over the format string:
the global regular expression matches the two-character sequences percent-s,
percent-d, percent-j and percent-percent from left to right; a matched
percent-percent always renders a single percent, the other specifiers
consume the next argument if one remains and otherwise stay verbatim.  The
result is the rendered text together with the unconsumed arguments. -/
def formatScan : List Char → List String → List Char × List String
  | [], args => ([], args)
  | [c], args => ([c], args)
  | c :: c2 :: rest, args =>
    if c = '%' then
      if c2 = '%' then
        let r := formatScan rest args
        ('%' :: r.1, r.2)
      else if c2 = 's' then
        match args with
        | a :: args2 =>
          let r := formatScan rest args2
          (a.data ++ r.1, r.2)
        | [] =>
          let r := formatScan rest []
          ('%' :: 's' :: r.1, r.2)
      else if c2 = 'd' then
        match args with
        | a :: args2 =>
          let r := formatScan rest args2
          ((jsNumberString a).data ++ r.1, r.2)
        | [] =>
          let r := formatScan rest []
          ('%' :: 'd' :: r.1, r.2)
      else if c2 = 'j' then
        match args with
        | a :: args2 =>
          let r := formatScan rest args2
          ((jsonQuote a).data ++ r.1, r.2)
        | [] =>
          let r := formatScan rest []
          ('%' :: 'j' :: r.1, r.2)
      else
        let r := formatScan (c2 :: rest) args
        (c :: r.1, r.2)
    else
      let r := formatScan (c2 :: rest) args
      (c :: r.1, r.2)

/-- Model of node util.format on string arguments: the substitution pass,
then every unconsumed argument appended after a single space (the trailing
loop of the node source). -/
def utilFormat (f : String) (args : List String) : String :=
  let r := formatScan f.data args
  ⟨r.1 ++ r.2.foldr (fun a acc => ' ' :: (a.data ++ acc)) []⟩

/-- Model of the JavaScript indexOf test for the two-character percent-s
needle used by the option processing (src/index.js line 144). -/
def hasMarker : List Char → Bool
  | '%' :: 's' :: _ => true
  | _ :: rest => hasMarker rest
  | [] => false

/-- Embedding of formatPath (src/index.js lines 209-217): an undefined or
empty filename defaults to the percent-s json template; any filename
containing a percent character is run through util.format with the
collection name as single argument; otherwise the filename is returned
unchanged. -/
def formatPath (filename? : Option String) (name : String) : String :=
  let filename := match filename? with
    | none => "%s.json"
    | some s => if s = "" then "%s.json" else s
  if '%' ∈ filename.data then utilFormat filename [name] else filename

/-- Output-related configuration computed by processCliOptions
(src/index.js lines 137-171). -/
structure OutputConfig where
  files : List String
  saveToFile : Bool
  mergeCollections : Bool
deriving DecidableEq, Repr

/-- A fatal configuration error: the message printed through console.error
and the exit code passed to process.exit. -/
structure FatalExit where
  msg : String
  code : Nat
deriving DecidableEq, Repr

/-- Embedding of the output-file block of processCliOptions
(src/index.js lines 137-171), with the process.exit(1) calls modelled as
Except.error carrying the printed message and the exit code. -/
def processOutputOptions (output colls : List String) : Except FatalExit OutputConfig :=
  match output with
  | [] => Except.ok { files := [], saveToFile := false, mergeCollections := true }
  | f0 :: rest =>
    if hasMarker f0.data then
      if rest.length > 0 then
        Except.error
          { msg := "Error: Only one output option is supported when using \"%s\"."
            code := 1 }
      else if colls.length > 0 then
        Except.ok { files := colls.map (fun _ => f0), saveToFile := true, mergeCollections := false }
      else
        Except.ok { files := [f0], saveToFile := true, mergeCollections := false }
    else if (f0 :: rest).length = colls.length then
      Except.ok { files := f0 :: rest, saveToFile := true, mergeCollections := false }
    else if (f0 :: rest).length > 1 then
      Except.error
        { msg := "Error: More output files then collections given."
          code := 1 }
    else
      Except.ok { files := f0 :: rest, saveToFile := true, mergeCollections := true }

/-- Destination key of the export mapping: none is console output (the
JavaScript null path of generateFilename). -/
abbrev Dest := Option String

/-- Embedding of generateFilename (src/index.js lines 219-229); an
out-of-range array access yields none, modelling the undefined value that
JavaScript would feed into formatPath. -/
def generateFilename (cfg : OutputConfig) (collName : String) (i : Nat) : Dest :=
  if cfg.saveToFile then
    some (formatPath (if cfg.mergeCollections then cfg.files.get? 0 else cfg.files.get? i) collName)
  else none

/-- The pathToCollectionMapping object: destination to the ordered list of
collection names contributing to it, keys unique by construction. -/
abbrev Mapping := List (Dest × List String)

/-- Embedding of addPathToMapping (src/index.js lines 233-240): push onto
the existing entry for the path, or create a fresh singleton entry. -/
def addPathToMapping : Mapping → Dest → String → Mapping
  | [], path, collName => [(path, [collName])]
  | (k, v) :: rest, path, collName =>
    if k = path then (k, v ++ [collName]) :: rest
    else (k, v) :: addPathToMapping rest path collName

/-- Indexed fold embedding the reduce that creates pathToCollectionMapping
at startup (src/index.js lines 365-369). -/
def buildMappingAux (cfg : OutputConfig) : Mapping → Nat → List String → Mapping
  | m, _, [] => m
  | m, i, c :: rest =>
    buildMappingAux cfg (addPathToMapping m (generateFilename cfg c i) c) (i + 1) rest

/-- The startup construction of pathToCollectionMapping from the requested
collection list (src/index.js lines 365-369). -/
def buildMapping (cfg : OutputConfig) (colls : List String) : Mapping :=
  buildMappingAux cfg [] 0 colls

/-- Option processing followed by mapping construction, in the order the
main flow runs them (src/index.js lines 361-369): a fatal option error
prevents any mapping from being produced. -/
def configureAndBuildMapping (output colls : List String) :
    Except FatalExit (OutputConfig × Mapping) :=
  (processOutputOptions output colls).map (fun cfg => (cfg, buildMapping cfg colls))

/-- A collection's contents: record id to record value (values opaque). -/
abbrev Records := List (String × String)

/-- The live ddp.collections store: collection name to its records. -/
abbrev Store := List (String × Records)

/-- Model of JavaScript property lookup on an object with unique keys. -/
def jsLookup {α : Type} : List (String × α) → String → Option α
  | [], _ => none
  | (k0, v) :: rest, k => if k0 = k then some v else jsLookup rest k

/-- Model of JavaScript property assignment: overwrite in place, or append
a new key at the end. -/
def jsSet {α : Type} : List (String × α) → String → α → List (String × α)
  | [], k, v => [(k, v)]
  | (k0, v0) :: rest, k, v =>
    if k0 = k then (k0, v) :: rest else (k0, v0) :: jsSet rest k v

/-- Embedding of the buffer construction in writeData (src/index.js lines
304-321): collection names absent from the live store are skipped
silently, the rest are copied under their own name. -/
def writeDataBuffer (store : Store) (cols : List String) : List (String × Records) :=
  cols.foldl (fun data col =>
    match jsLookup store col with
    | none => data
    | some recs => jsSet data col recs) []

/-- Value of lastMessageDate at wall-clock time t: the startup timestamp
(src/index.js line 377) overwritten by every message arrival not later
than t (line 389).  Times are naturals counting milliseconds. -/
def lastMessageAt (init : Nat) (msgs : List Nat) (t : Nat) : Nat :=
  (msgs.filter (fun m => m ≤ t)).foldl max init

/-- Embedding of the waitForTimeout polling loop (src/index.js lines
253-262): each check runs timeout ms after it was scheduled, fires
receivedLastDDPMessage (the returned firing time) when the elapsed gap
since the last message strictly exceeds timeout, and otherwise reschedules
itself.  The fuel bounds how many checks are modelled; none means no check
fired within the fuel. -/
def waitForTimeout : Nat → Nat → List Nat → Nat → Nat → Option Nat
  | 0, _, _, _, _ => none
  | fuel + 1, init, msgs, timeout, start =>
    let t := start + timeout
    if timeout < t - lastMessageAt init msgs t then some t
    else waitForTimeout fuel init msgs timeout t

/-- Result record handed by subscribeToCollection to async
(src/index.js lines 242-247): the collection name and the subscription
error, if any.  The callback never reports an error to async itself. -/
structure SubResult where
  name : String
  err : Option String
deriving DecidableEq, Repr

/-- What processSubscribtionResults does: its log output, whether the
completion wait was started, and whether it exited the process. -/
structure SubOutcome where
  logs : List LogEntry
  startedWait : Bool
  exit : Option Nat
deriving DecidableEq, Repr

/-- Embedding of processSubscribtionResults (src/index.js lines 264-280):
failures go to console.error with the collection name and the error
message, successes to info with the current row count, and waitForTimeout
is always started afterwards; no path exits the process. -/
def processSubscribtionResults (store : Store) (results : List SubResult) : SubOutcome :=
  { logs := results.map (fun r =>
      match r.err with
      | some m =>
        (Level.err, utilFormat "Error: Could not subscribe to collection \"%s\":\n%s" [r.name, m])
      | none =>
        (Level.info, utilFormat "Subscription of \"%s\" was successful (%s rows)"
          [r.name, toString ((jsLookup store r.name).getD []).length]))
    startedWait := true
    exit := none }

/-- What the ddp.connect callback does: its log output, whether it exited
the process, which collections it subscribed to, and whether it started
the completion wait directly. -/
structure ConnectOutcome where
  logs : List LogEntry
  exit : Option Nat
  subscribed : List String
  startedWait : Bool
deriving DecidableEq, Repr

/-- Embedding of the ddp.connect callback (src/index.js lines 396-411): a
handshake error is logged through info only and the callback returns; on
success either waitForTimeout starts directly (no explicit collections) or
every requested collection is subscribed.  No path calls process.exit. -/
def connectCallback (colls : List String) (err : Option String) : ConnectOutcome :=
  match err with
  | some _ =>
    { logs := [(Level.info, "Error: DDP connection failed")]
      exit := none
      subscribed := []
      startedWait := false }
  | none =>
    { logs := [(Level.info, "DDP connection was successful")]
      exit := none
      subscribed := colls
      startedWait := colls.isEmpty }

/-- Embedding of finish (src/index.js lines 323-329): a present error is
printed through plain console.log, and ddp.close is called in every
case (the Bool component). -/
def finish (err : Option String) : List LogEntry × Bool :=
  (match err with
   | some e => [(Level.plain, "An error occured during saving of files:"), (Level.plain, e)]
   | none => [],
   true)

/-- One completed write callback: the destination it belongs to and the
error it delivered, if any. -/
structure Completion where
  path : Dest
  result : Option String
deriving DecidableEq, Repr

/-- Number of write completions that have already happened at the moment
async.map calls its final callback: the async library (v1 semantics, as
documented) invokes the final callback at the first completion that
delivers an error, or after the last completion when none errs. -/
def asyncMapFinishAt : List Completion → Nat
  | [] => 0
  | c :: rest => if c.result.isSome then 1 else 1 + asyncMapFinishAt rest

/-- The error async.map hands to the final callback: the first error to
complete, if any. -/
def asyncMapFinishErr : List Completion → Option String
  | [] => none
  | c :: rest =>
    match c.result with
    | some e => some e
    | none => asyncMapFinishErr rest

/-- Observable outcome of the export phase. -/
structure WritePhaseOutcome where
  issuedPaths : List Dest
  buffers : List (Dest × List (String × Records))
  finishErr : Option String
  completionsWhenFinishRan : Nat
  finishLogs : List LogEntry
  closed : Bool
deriving DecidableEq, Repr

/-- Model of the export phase (src/index.js lines 296-329): async.map
issues writeData for every destination of the mapping up front, the write
completions then arrive in the order chosen by the environment (the
completions argument), and finish runs as soon as async.map invokes it. -/
def runWritePhase (store : Store) (mapping : Mapping) (completions : List Completion) :
    WritePhaseOutcome :=
  { issuedPaths := mapping.map (fun e => e.1)
    buffers := mapping.map (fun e => (e.1, writeDataBuffer store e.2))
    finishErr := asyncMapFinishErr completions
    completionsWhenFinishRan := asyncMapFinishAt completions
    finishLogs := (finish (asyncMapFinishErr completions)).1
    closed := (finish (asyncMapFinishErr completions)).2 }

/-- State touched by the capture-all discovery step: the destination
mapping and the options.colls list it checks membership against. -/
structure DiscoveryState where
  mapping : Mapping
  colls : List String
deriving DecidableEq, Repr

/-- Embedding of the capture-all discovery step inside
receivedLastDDPMessage (src/index.js lines 282-294) for one collection
name: a name already requested or already discovered is skipped, a new
name is routed through generateFilename with index 0, appended to the
mapping and recorded in options.colls. -/
def discoverCollection (cfg : OutputConfig) (st : DiscoveryState) (collName : String) :
    DiscoveryState :=
  if collName ∈ st.colls then st
  else
    { mapping := addPathToMapping st.mapping (generateFilename cfg collName 0) collName
      colls := st.colls ++ [collName] }

/-- Destination each requested collection resolves to, in order, starting
at position i: the per-collection view of the startup mapping fold. -/
def destsFrom (cfg : OutputConfig) : Nat → List String → List Dest
  | _, [] => []
  | i, c :: rest => generateFilename cfg c i :: destsFrom cfg (i + 1) rest

/-- The mapping the split assignment is expected to produce: one entry per
requested collection, in order, each contributing exactly itself. -/
def splitEntries (cfg : OutputConfig) : Nat → List String → Mapping
  | _, [] => []
  | i, c :: rest => (generateFilename cfg c i, [c]) :: splitEntries cfg (i + 1) rest

/-- Total number of contribution entries for a collection name across the
whole mapping. -/
def totalCount : Mapping → String → Nat
  | [], _ => 0
  | e :: rest, c => e.2.count c + totalCount rest c

/-- Lines actually printed on the terminal: info calls print only in
verbose mode (src/index.js lines 335-338), console.log and console.error
always print. -/
def visibleLines (verbose : Bool) (logs : List LogEntry) : List String :=
  (logs.filter (fun e =>
    match e.1 with
    | Level.info => verbose
    | _ => true)).map (fun e => e.2)

/-! Lemmas about the util.format model. -/

theorem formatScan_no_pct (cs : List Char) (args : List String) (h : '%' ∉ cs) :
    formatScan cs args = (cs, args) := by
  induction cs with
  | nil => rfl
  | cons c rest ih =>
    have hc : c ≠ '%' := by
      intro he
      exact h (by rw [← he]; exact List.mem_cons_self c rest)
    have hrest : '%' ∉ rest := fun hm => h (List.mem_cons_of_mem c hm)
    cases rest with
    | nil => rfl
    | cons c2 rest2 =>
      simp only [formatScan, if_neg hc, ih hrest]

theorem formatScan_append_no_pct (A tail : List Char) (args : List String) (h : '%' ∉ A) :
    formatScan (A ++ tail) args =
      (A ++ (formatScan tail args).1, (formatScan tail args).2) := by
  induction A with
  | nil => simp
  | cons c A2 ih =>
    have hc : c ≠ '%' := by
      intro he
      exact h (by rw [← he]; exact List.mem_cons_self c A2)
    have hA2 : '%' ∉ A2 := fun hm => h (List.mem_cons_of_mem c hm)
    show formatScan (c :: (A2 ++ tail)) args = _
    cases hAT : A2 ++ tail with
    | nil =>
      rcases List.append_eq_nil.mp hAT with ⟨h1, h2⟩
      subst h1; subst h2
      simp [formatScan]
    | cons d ds =>
      simp only [formatScan, if_neg hc, ← hAT, ih hA2]
      simp

theorem formatScan_marker (rest : List Char) (a : String) (args : List String) :
    formatScan ('%' :: 's' :: rest) (a :: args) =
      (a.data ++ (formatScan rest args).1, (formatScan rest args).2) := rfl

theorem utilFormat_one (a b n : String) (ha : '%' ∉ a.data) (hb : '%' ∉ b.data) :
    utilFormat (a ++ "%s" ++ b) [n] = a ++ n ++ b := by
  apply String.ext
  have hdata : (a ++ "%s" ++ b).data = a.data ++ ('%' :: 's' :: b.data) := by
    simp only [String.data_append, List.append_assoc]
    rfl
  simp only [utilFormat, hdata, formatScan_append_no_pct _ _ _ ha, formatScan_marker,
    formatScan_no_pct _ _ hb]
  simp [String.data_append]

theorem utilFormat_two (a b c n m : String)
    (ha : '%' ∉ a.data) (hb : '%' ∉ b.data) (hc : '%' ∉ c.data) :
    utilFormat (a ++ "%s" ++ b ++ "%s" ++ c) [n, m] = a ++ n ++ b ++ m ++ c := by
  apply String.ext
  have hdata : (a ++ "%s" ++ b ++ "%s" ++ c).data =
      a.data ++ ('%' :: 's' :: (b.data ++ ('%' :: 's' :: c.data))) := by
    simp only [String.data_append, List.append_assoc]
    rfl
  simp only [utilFormat, hdata, formatScan_append_no_pct _ _ _ ha, formatScan_marker,
    formatScan_append_no_pct _ _ _ hb, formatScan_no_pct _ _ hc]
  simp [String.data_append]

/-! Lemmas about formatPath. -/

theorem formatPath_none (n : String) : formatPath none n = n ++ ".json" := by
  show utilFormat "%s.json" [n] = n ++ ".json"
  have h := utilFormat_one "" ".json" n (by decide) (by decide)
  have e1 : ("" ++ "%s" ++ ".json" : String) = "%s.json" := by decide
  rw [e1, String.empty_append] at h
  exact h

theorem formatPath_empty (n : String) : formatPath (some "") n = n ++ ".json" := by
  show utilFormat "%s.json" [n] = n ++ ".json"
  have h := utilFormat_one "" ".json" n (by decide) (by decide)
  have e1 : ("" ++ "%s" ++ ".json" : String) = "%s.json" := by decide
  rw [e1, String.empty_append] at h
  exact h

theorem formatPath_verbatim (t n : String) (hne : t ≠ "") (h : '%' ∉ t.data) :
    formatPath (some t) n = t := by
  simp only [formatPath, if_neg hne, if_neg h]

theorem formatPath_subst (a b n : String) (ha : '%' ∉ a.data) (hb : '%' ∉ b.data) :
    formatPath (some (a ++ "%s" ++ b)) n = a ++ n ++ b := by
  have hmem : '%' ∈ (a ++ "%s" ++ b).data := by
    simp only [String.data_append, List.mem_append]
    exact Or.inl (Or.inr (by decide))
  have hne : (a ++ "%s" ++ b) ≠ "" := by
    intro he
    rw [he] at hmem
    simp at hmem
  simp only [formatPath, if_neg hne, if_pos hmem]
  exact utilFormat_one a b n ha hb

/-- C4: path templating defaults an absent or empty template to the
collection name followed by the json suffix, substitutes the collection
name at the first occurrence of the marker when the template's percent
signs form exactly one percent-s marker, and returns the template
unchanged when it contains no percent character at all (amended: the
source's guard is any percent character, not the percent-s marker, so a
template with a percent but no marker is still run through the formatter
and is not returned unchanged). -/
theorem c4_formatPath_amended :
    (∀ n : String, formatPath none n = n ++ ".json") ∧
    (∀ n : String, formatPath (some "") n = n ++ ".json") ∧
    (∀ t n : String, t ≠ "" → '%' ∉ t.data → formatPath (some t) n = t) ∧
    (∀ a b n : String, '%' ∉ a.data → '%' ∉ b.data →
      formatPath (some (a ++ "%s" ++ b)) n = a ++ n ++ b) :=
  ⟨formatPath_none, formatPath_empty, formatPath_verbatim, formatPath_subst⟩

/-- C4 counterexample: the template holds a percent character but no
percent-s marker, so by the claim it should be returned completely
unchanged; the code instead runs it through the formatter, which appends
the unconsumed collection name after a space. -/
theorem c4_percent_without_marker_counterexample :
    formatPath (some "100%x.json") "cats" = "100%x.json cats" ∧
    "100%x.json cats" ≠ "100%x.json" ∧
    hasMarker "100%x.json".data = false :=
  ⟨by decide, by decide, by decide⟩

/-- Witness for C4: the amended theorem evaluated at concrete inputs. -/
theorem c4_formatPath_amended_witness :
    formatPath (some "out.json") "cats" = "out.json" ∧
    formatPath (some ("col_" ++ "%s" ++ ".json")) "dogs" = "col_" ++ "dogs" ++ ".json" :=
  ⟨c4_formatPath_amended.2.2.1 "out.json" "cats" (by decide) (by decide),
   c4_formatPath_amended.2.2.2 "col_" ".json" "dogs" (by decide) (by decide)⟩

/-! Lemmas about the completion detector. -/

theorem waitForTimeout_fire_gap (fuel : Nat) :
    ∀ (init : Nat) (msgs : List Nat) (timeout start t : Nat),
      waitForTimeout fuel init msgs timeout start = some t →
      timeout < t - lastMessageAt init msgs t := by
  induction fuel with
  | zero =>
    intro init msgs timeout start t h
    simp [waitForTimeout] at h
  | succ fuel ih =>
    intro init msgs timeout start t h
    simp only [waitForTimeout] at h
    split at h
    · next hcond =>
      obtain rfl : start + timeout = t := Option.some.inj h
      exact hcond
    · exact ih init msgs timeout _ t h

theorem waitForTimeout_first (fuel : Nat) :
    ∀ (init : Nat) (msgs : List Nat) (timeout start t : Nat),
      waitForTimeout fuel init msgs timeout start = some t →
      ∃ j, t = start + (j + 1) * timeout ∧
        ∀ i, i < j →
          ¬ timeout < (start + (i + 1) * timeout) -
              lastMessageAt init msgs (start + (i + 1) * timeout) := by
  induction fuel with
  | zero =>
    intro init msgs timeout start t h
    simp [waitForTimeout] at h
  | succ fuel ih =>
    intro init msgs timeout start t h
    simp only [waitForTimeout] at h
    split at h
    · next hcond =>
      obtain rfl : start + timeout = t := Option.some.inj h
      exact ⟨0, by ring, fun i hi => absurd hi (Nat.not_lt_zero i)⟩
    · next hcond =>
      obtain ⟨j, hj, hfail⟩ := ih init msgs timeout (start + timeout) t h
      refine ⟨j + 1, ?_, ?_⟩
      · rw [hj]; ring
      · intro i hi
        cases i with
        | zero =>
          have e : start + (0 + 1) * timeout = start + timeout := by ring
          rw [e]
          exact hcond
        | succ i2 =>
          have e : start + (i2 + 1 + 1) * timeout = start + timeout + (i2 + 1) * timeout := by
            ring
          rw [e]
          exact hfail i2 (Nat.lt_of_succ_lt_succ hi)

theorem waitForTimeout_complete :
    ∀ (j init : Nat) (msgs : List Nat) (timeout start : Nat),
      (∀ i, i < j →
        ¬ timeout < (start + (i + 1) * timeout) -
            lastMessageAt init msgs (start + (i + 1) * timeout)) →
      timeout < (start + (j + 1) * timeout) -
          lastMessageAt init msgs (start + (j + 1) * timeout) →
      waitForTimeout (j + 1) init msgs timeout start = some (start + (j + 1) * timeout) := by
  intro j
  induction j with
  | zero =>
    intro init msgs timeout start hfail hfire
    have e : start + (0 + 1) * timeout = start + timeout := by ring
    rw [e] at hfire ⊢
    simp only [waitForTimeout, if_pos hfire]
  | succ j2 ih =>
    intro init msgs timeout start hfail hfire
    have h0 : ¬ timeout < (start + timeout) - lastMessageAt init msgs (start + timeout) := by
      have e : start + (0 + 1) * timeout = start + timeout := by ring
      rw [← e]
      exact hfail 0 (Nat.succ_pos j2)
    rw [waitForTimeout]
    simp only [if_neg h0]
    have e2 : ∀ k : Nat, start + timeout + (k + 1) * timeout = start + (k + 1 + 1) * timeout := by
      intro k; ring
    have hrec := ih init msgs timeout (start + timeout)
      (fun i hi => by rw [e2 i]; exact hfail (i + 1) (Nat.succ_lt_succ hi))
      (by rw [e2 j2]; exact hfire)
    rw [hrec, e2 j2]

/-- C3: the polling detector never fires a check whose elapsed gap since
the last message is at most the timeout; when it fires, the firing moment
is a scheduled check time and every earlier scheduled check had failed the
gap test (so the callback runs exactly once, at the first qualifying
check); conversely the first qualifying check does fire; and in the
scenario with messages at 0, 100 and 200 ms and a 150 ms timeout the
detector fires at 450 ms, not before 350 ms. -/
theorem c3_completion_detector :
    (∀ (fuel init : Nat) (msgs : List Nat) (timeout start t : Nat),
        waitForTimeout fuel init msgs timeout start = some t →
        timeout < t - lastMessageAt init msgs t ∧
        ∃ j, t = start + (j + 1) * timeout ∧
          ∀ i, i < j →
            ¬ timeout < (start + (i + 1) * timeout) -
                lastMessageAt init msgs (start + (i + 1) * timeout)) ∧
    (∀ (j init : Nat) (msgs : List Nat) (timeout start : Nat),
        (∀ i, i < j →
          ¬ timeout < (start + (i + 1) * timeout) -
              lastMessageAt init msgs (start + (i + 1) * timeout)) →
        timeout < (start + (j + 1) * timeout) -
            lastMessageAt init msgs (start + (j + 1) * timeout) →
        waitForTimeout (j + 1) init msgs timeout start = some (start + (j + 1) * timeout)) ∧
    (waitForTimeout 10 0 [0, 100, 200] 150 0 = some 450 ∧ 350 ≤ 450) :=
  ⟨fun fuel init msgs timeout start t h =>
      ⟨waitForTimeout_fire_gap fuel init msgs timeout start t h,
       waitForTimeout_first fuel init msgs timeout start t h⟩,
   waitForTimeout_complete,
   by decide, by norm_num⟩

/-- Witness for C3: the soundness part applied to the concrete firing of
the spec's idle-completion scenario. -/
theorem c3_completion_detector_witness :
    150 < 450 - lastMessageAt 0 [0, 100, 200] 450 ∧
    ∃ j, (450 : Nat) = 0 + (j + 1) * 150 ∧
      ∀ i, i < j →
        ¬ 150 < (0 + (i + 1) * 150) - lastMessageAt 0 [0, 100, 200] (0 + (i + 1) * 150) :=
  c3_completion_detector.1 10 0 [0, 100, 200] 150 0 450 (by decide)

/-! Lemmas about the destination mapping. -/

theorem addPathToMapping_new (m : Mapping) (d : Dest) (c : String)
    (h : ∀ e ∈ m, e.1 ≠ d) :
    addPathToMapping m d c = m ++ [(d, [c])] := by
  induction m with
  | nil => rfl
  | cons e rest ih =>
    obtain ⟨k, v⟩ := e
    have hk : k ≠ d := h (k, v) (List.mem_cons_self _ _)
    simp only [addPathToMapping, if_neg hk, List.cons_append]
    rw [ih (fun e he => h e (List.mem_cons_of_mem _ he))]

theorem buildMappingAux_split (cfg : OutputConfig) :
    ∀ (colls : List String) (m : Mapping) (i : Nat),
      (destsFrom cfg i colls).Nodup →
      (∀ d ∈ destsFrom cfg i colls, ∀ e ∈ m, e.1 ≠ d) →
      buildMappingAux cfg m i colls = m ++ splitEntries cfg i colls := by
  intro colls
  induction colls with
  | nil =>
    intro m i _ _
    simp [buildMappingAux, splitEntries]
  | cons c rest ih =>
    intro m i hnd hdis
    have hd0 : ∀ e ∈ m, e.1 ≠ generateFilename cfg c i :=
      hdis (generateFilename cfg c i) (by simp [destsFrom])
    obtain ⟨hnotin, hnd2⟩ := List.nodup_cons.mp (by simpa [destsFrom] using hnd)
    have hdis2 : ∀ d ∈ destsFrom cfg (i + 1) rest,
        ∀ e ∈ m ++ [(generateFilename cfg c i, [c])], e.1 ≠ d := by
      intro d hd e he
      rcases List.mem_append.mp he with hm | hsing
      · exact hdis d (by simp [destsFrom, hd]) e hm
      · have he2 : e = (generateFilename cfg c i, [c]) := List.mem_singleton.mp hsing
        rw [he2]
        intro heq
        apply hnotin
        have heq2 : generateFilename cfg c i = d := heq
        rw [heq2]
        exact hd
    simp only [buildMappingAux]
    rw [addPathToMapping_new m _ c hd0,
      ih (m ++ [(generateFilename cfg c i, [c])]) (i + 1) hnd2 hdis2]
    simp [splitEntries]

theorem splitEntries_length_one (cfg : OutputConfig) :
    ∀ (colls : List String) (i : Nat) (e : Dest × List String),
      e ∈ splitEntries cfg i colls → e.2.length = 1 := by
  intro colls
  induction colls with
  | nil =>
    intro i e he
    simp [splitEntries] at he
  | cons c rest ih =>
    intro i e he
    simp only [splitEntries, List.mem_cons] at he
    rcases he with rfl | he
    · rfl
    · exact ih (i + 1) e he

theorem splitEntries_mem (cfg : OutputConfig) :
    ∀ (colls : List String) (i : Nat) (c : String), c ∈ colls →
      ∃ d, (d, [c]) ∈ splitEntries cfg i colls := by
  intro colls
  induction colls with
  | nil =>
    intro i c hc
    simp at hc
  | cons c0 rest ih =>
    intro i c hc
    rcases List.mem_cons.mp hc with rfl | hc
    · exact ⟨generateFilename cfg c i, by simp [splitEntries]⟩
    · obtain ⟨d, hd⟩ := ih (i + 1) c hc
      exact ⟨d, by simp [splitEntries, hd]⟩

/-- C5: in split mode every requested collection is assigned its own
destination, derived via template substitution or positionally, and the
resulting mapping has exactly one collection per destination (amended:
this requires the per-collection destinations to be pairwise distinct;
with duplicate requested names, or positional output paths that coincide,
several collections share one destination entry).  The second conjunct is
the spec's template fan-out scenario. -/
theorem c5_split_one_collection_per_destination :
    (∀ (cfg : OutputConfig) (colls : List String),
        (destsFrom cfg 0 colls).Nodup →
        buildMapping cfg colls = splitEntries cfg 0 colls ∧
        (∀ e ∈ buildMapping cfg colls, e.2.length = 1) ∧
        (∀ c ∈ colls, ∃ d, (d, [c]) ∈ buildMapping cfg colls)) ∧
    configureAndBuildMapping ["col_%s.json"] ["cats", "dogs", "lizards"] =
      Except.ok ({ files := ["col_%s.json", "col_%s.json", "col_%s.json"],
                   saveToFile := true, mergeCollections := false },
        [(some "col_cats.json", ["cats"]),
         (some "col_dogs.json", ["dogs"]),
         (some "col_lizards.json", ["lizards"])]) := by
  constructor
  · intro cfg colls hnd
    have heq : buildMapping cfg colls = splitEntries cfg 0 colls := by
      have h0 : ∀ d ∈ destsFrom cfg 0 colls, ∀ e ∈ ([] : Mapping), e.1 ≠ d := by
        intro d _ e he
        simp at he
      simpa using buildMappingAux_split cfg colls [] 0 hnd h0
    refine ⟨heq, ?_, ?_⟩
    · rw [heq]
      exact splitEntries_length_one cfg colls 0
    · intro c hc
      rw [heq]
      exact splitEntries_mem cfg colls 0 c hc
  · rfl

/-- C5 counterexample: split mode via the percent-s template, but the
requested collection list repeats a name, so both occurrences resolve to
the same destination and that destination's entry holds two collections,
not one. -/
theorem c5_duplicate_names_counterexample :
    configureAndBuildMapping ["col_%s.json"] ["cats", "cats"] =
      Except.ok ({ files := ["col_%s.json", "col_%s.json"],
                   saveToFile := true, mergeCollections := false },
        [(some "col_cats.json", ["cats", "cats"])]) ∧
    ¬ (["cats", "cats"] : List String).length = 1 :=
  ⟨rfl, by decide⟩

/-- Witness for C5: the universal part applied to the template fan-out
configuration of the spec. -/
theorem c5_split_one_collection_per_destination_witness :
    buildMapping { files := ["col_%s.json", "col_%s.json", "col_%s.json"],
                   saveToFile := true, mergeCollections := false }
        ["cats", "dogs", "lizards"] =
      splitEntries { files := ["col_%s.json", "col_%s.json", "col_%s.json"],
                     saveToFile := true, mergeCollections := false }
        0 ["cats", "dogs", "lizards"] ∧
    (∀ e ∈ buildMapping { files := ["col_%s.json", "col_%s.json", "col_%s.json"],
                          saveToFile := true, mergeCollections := false }
        ["cats", "dogs", "lizards"], e.2.length = 1) ∧
    (∀ c ∈ (["cats", "dogs", "lizards"] : List String),
      ∃ d, (d, [c]) ∈ buildMapping { files := ["col_%s.json", "col_%s.json", "col_%s.json"],
                                     saveToFile := true, mergeCollections := false }
        ["cats", "dogs", "lizards"]) :=
  c5_split_one_collection_per_destination.1
    { files := ["col_%s.json", "col_%s.json", "col_%s.json"],
      saveToFile := true, mergeCollections := false }
    ["cats", "dogs", "lizards"] (by decide)

/-! Lemmas about capture-all discovery. -/

theorem totalCount_addPathToMapping (m : Mapping) (d : Dest) (c : String) :
    totalCount (addPathToMapping m d c) c = totalCount m c + 1 := by
  induction m with
  | nil => simp [addPathToMapping, totalCount]
  | cons e rest ih =>
    obtain ⟨k, v⟩ := e
    by_cases hk : k = d
    · subst hk
      simp only [addPathToMapping, if_pos rfl, totalCount, List.count_append]
      simp
      omega
    · simp only [addPathToMapping, if_neg hk, totalCount, ih]
      omega

/-- C6: the capture-all discovery extension is idempotent per collection
name: a name already present among the requested or previously discovered
collections is skipped entirely, so extending twice with the same newly
discovered name leaves the mapping with exactly one contribution entry for
it, never two. -/
theorem c6_discovery_idempotent :
    (∀ (cfg : OutputConfig) (st : DiscoveryState) (n : String),
        n ∈ st.colls → discoverCollection cfg st n = st) ∧
    (∀ (cfg : OutputConfig) (st : DiscoveryState) (n : String),
        discoverCollection cfg (discoverCollection cfg st n) n = discoverCollection cfg st n) ∧
    (∀ (cfg : OutputConfig) (st : DiscoveryState) (n : String),
        n ∉ st.colls → totalCount st.mapping n = 0 →
        totalCount (discoverCollection cfg (discoverCollection cfg st n) n).mapping n = 1) := by
  have halready : ∀ (cfg : OutputConfig) (st : DiscoveryState) (n : String),
      n ∈ st.colls → discoverCollection cfg st n = st := by
    intro cfg st n h
    simp [discoverCollection, h]
  have hmem : ∀ (cfg : OutputConfig) (st : DiscoveryState) (n : String),
      n ∈ (discoverCollection cfg st n).colls := by
    intro cfg st n
    by_cases h : n ∈ st.colls
    · simp [discoverCollection, h]
    · simp [discoverCollection, h]
  refine ⟨halready, fun cfg st n => halready cfg _ n (hmem cfg st n), ?_⟩
  intro cfg st n hn h0
  rw [halready cfg _ n (hmem cfg st n)]
  simp only [discoverCollection, if_neg hn]
  rw [totalCount_addPathToMapping, h0]

/-- Witness for C6: discovering the same new collection twice on an empty
state leaves exactly one contribution entry. -/
theorem c6_discovery_idempotent_witness :
    totalCount (discoverCollection
        { files := [], saveToFile := false, mergeCollections := true }
        (discoverCollection
          { files := [], saveToFile := false, mergeCollections := true }
          { mapping := [], colls := [] } "newcoll")
        "newcoll").mapping "newcoll" = 1 :=
  c6_discovery_idempotent.2.2
    { files := [], saveToFile := false, mergeCollections := true }
    { mapping := [], colls := [] } "newcoll" (by decide) (by decide)

/-- C7: with more than one output path, a template marker in the first
path, or a count that does not match the requested collections, is a
fatal configuration error: option processing stops with exit code 1 and
no mapping is produced. -/
theorem c7_ambiguous_outputs_fatal :
    ∀ (f0 : String) (rest colls : List String),
      0 < rest.length →
      (hasMarker f0.data = true ∨ (f0 :: rest).length ≠ colls.length) →
      ∃ e, configureAndBuildMapping (f0 :: rest) colls = Except.error e ∧ e.code ≠ 0 := by
  intro f0 rest colls hlen hcase
  by_cases hm : hasMarker f0.data = true
  · refine ⟨{ msg := "Error: Only one output option is supported when using \"%s\".", code := 1 },
      ?_, by decide⟩
    simp only [configureAndBuildMapping, processOutputOptions]
    rw [if_pos hm, if_pos hlen]
    rfl
  · have hne : (f0 :: rest).length ≠ colls.length := by
      rcases hcase with h | h
      · exact absurd h hm
      · exact h
    have hgt : (f0 :: rest).length > 1 := by
      simp only [List.length_cons]
      omega
    refine ⟨{ msg := "Error: More output files then collections given.", code := 1 },
      ?_, by decide⟩
    simp only [configureAndBuildMapping, processOutputOptions]
    rw [if_neg hm, if_neg hne, if_pos hgt]
    rfl

/-- Witness for C7: the spec's ambiguous-outputs scenario, three outputs
for one collection and no marker. -/
theorem c7_ambiguous_outputs_fatal_witness :
    ∃ e, configureAndBuildMapping ["a.json", "b.json", "c.json"] ["cats"] = Except.error e ∧
      e.code ≠ 0 :=
  c7_ambiguous_outputs_fatal "a.json" ["b.json", "c.json"] ["cats"] (by decide) (by decide)

/-! Lemmas about the live-store model and the write buffer. -/

theorem jsLookup_jsSet_self {α : Type} (d : List (String × α)) (k : String) (v : α) :
    jsLookup (jsSet d k v) k = some v := by
  induction d with
  | nil => simp [jsSet, jsLookup]
  | cons e rest ih =>
    obtain ⟨k0, v0⟩ := e
    by_cases h : k0 = k
    · subst h
      simp [jsSet, jsLookup]
    · simp [jsSet, jsLookup, h, ih]

theorem jsLookup_jsSet_ne {α : Type} (d : List (String × α)) (k k2 : String) (v : α)
    (h : k2 ≠ k) : jsLookup (jsSet d k v) k2 = jsLookup d k2 := by
  induction d with
  | nil => simp [jsSet, jsLookup, Ne.symm h]
  | cons e rest ih =>
    obtain ⟨k0, v0⟩ := e
    by_cases h0 : k0 = k
    · subst h0
      simp [jsSet, jsLookup, Ne.symm h]
    · simp [jsSet, jsLookup, h0, ih]

theorem jsLookup_eq_none_iff {α : Type} (l : List (String × α)) (c : String) :
    jsLookup l c = none ↔ c ∉ l.map (fun e => e.1) := by
  induction l with
  | nil => simp [jsLookup]
  | cons e rest ih =>
    obtain ⟨k, v⟩ := e
    by_cases h : k = c
    · subst h
      simp [jsLookup]
    · simp [jsLookup, h, ih, Ne.symm h]

theorem writeDataBuffer_aux (store : Store) :
    ∀ (cols : List String) (acc : List (String × Records)) (c : String),
      jsLookup (cols.foldl (fun data col =>
        match jsLookup store col with
        | none => data
        | some recs => jsSet data col recs) acc) c =
      if c ∈ cols ∧ (jsLookup store c).isSome = true then jsLookup store c
      else jsLookup acc c := by
  intro cols
  induction cols with
  | nil =>
    intro acc c
    simp
  | cons d rest ih =>
    intro acc c
    simp only [List.foldl_cons]
    rw [ih]
    by_cases hmem : c ∈ rest ∧ (jsLookup store c).isSome = true
    · rw [if_pos hmem, if_pos ⟨List.mem_cons_of_mem d hmem.1, hmem.2⟩]
    · rw [if_neg hmem]
      by_cases hcd : c = d
      · subst hcd
        cases hs : jsLookup store c with
        | none => simp [hs]
        | some recs => simp [hs, jsLookup_jsSet_self]
      · have hcond : ¬ (c ∈ d :: rest ∧ (jsLookup store c).isSome = true) := by
          rintro ⟨hc1, hc2⟩
          rcases List.mem_cons.mp hc1 with h1 | h1
          · exact hcd h1
          · exact hmem ⟨h1, hc2⟩
        rw [if_neg hcond]
        cases hs : jsLookup store d with
        | none => simp [hs]
        | some recs => simp [hs, jsLookup_jsSet_ne _ _ _ _ hcd]

theorem writeDataBuffer_lookup (store : Store) (cols : List String) (c : String) :
    jsLookup (writeDataBuffer store cols) c =
      if c ∈ cols ∧ (jsLookup store c).isSome = true then jsLookup store c else none := by
  simp only [writeDataBuffer]
  rw [writeDataBuffer_aux]
  simp [jsLookup]

/-- C9: the consolidated buffer handed to the sink is keyed exactly by the
contributing collection names present in the live store (one top-level key
per collection, also in the single-collection case), each mapped to that
collection's record mapping; contributing names absent from the store are
silently omitted — no key, no error. -/
theorem c9_buffer_shape :
    ∀ (store : Store) (cols : List String),
      (∀ c recs, c ∈ cols → jsLookup store c = some recs →
        jsLookup (writeDataBuffer store cols) c = some recs) ∧
      (∀ c, jsLookup store c = none → jsLookup (writeDataBuffer store cols) c = none) ∧
      (∀ c, c ∈ (writeDataBuffer store cols).map (fun e => e.1) ↔
        c ∈ cols ∧ jsLookup store c ≠ none) ∧
      (∀ c recs, jsLookup store c = some recs → writeDataBuffer store [c] = [(c, recs)]) := by
  intro store cols
  refine ⟨?_, ?_, ?_, ?_⟩
  · intro c recs hc hs
    rw [writeDataBuffer_lookup, if_pos ⟨hc, by simp [hs]⟩, hs]
  · intro c hs
    rw [writeDataBuffer_lookup]
    by_cases h : c ∈ cols ∧ (jsLookup store c).isSome = true
    · rw [if_pos h]
      exact hs
    · rw [if_neg h]
  · intro c
    constructor
    · intro hmem
      by_contra hcond
      have hnone : jsLookup (writeDataBuffer store cols) c = none := by
        rw [writeDataBuffer_lookup, if_neg]
        rintro ⟨h1, h2⟩
        exact hcond ⟨h1, Option.isSome_iff_ne_none.mp h2⟩
      exact (jsLookup_eq_none_iff _ c).mp hnone hmem
    · rintro ⟨h1, h2⟩
      have hcond : c ∈ cols ∧ (jsLookup store c).isSome = true :=
        ⟨h1, Option.isSome_iff_ne_none.mpr h2⟩
      have hval : jsLookup (writeDataBuffer store cols) c ≠ none := by
        rw [writeDataBuffer_lookup, if_pos hcond]
        exact h2
      by_contra hnot
      exact hval ((jsLookup_eq_none_iff _ c).mpr hnot)
  · intro c recs hs
    simp only [writeDataBuffer, List.foldl_cons, List.foldl_nil, hs]
    simp [jsSet]

/-- Witness for C9: a store holding cats but not ghost; the buffer keeps
cats under its own key and omits ghost. -/
theorem c9_buffer_shape_witness :
    jsLookup (writeDataBuffer [("cats", [("id1", "v1")])] ["cats", "ghost"]) "cats" =
      some [("id1", "v1")] ∧
    jsLookup (writeDataBuffer [("cats", [("id1", "v1")])] ["cats", "ghost"]) "ghost" = none :=
  ⟨(c9_buffer_shape [("cats", [("id1", "v1")])] ["cats", "ghost"]).1 "cats" [("id1", "v1")]
      (by decide) (by decide),
   (c9_buffer_shape [("cats", [("id1", "v1")])] ["cats", "ghost"]).2.1 "ghost" (by decide)⟩

/-- C8: a failed subscription is reported through console.error with the
collection name and the underlying message, and is never fatal: the
results for all collections are still processed, the completion wait is
started, and the process does not exit. -/
theorem c8_subscription_failure_nonfatal :
    ∀ (store : Store) (results : List SubResult) (r : SubResult) (m : String),
      r ∈ results → r.err = some m →
      (Level.err, "Error: Could not subscribe to collection \"" ++ r.name ++ "\":\n" ++ m)
        ∈ (processSubscribtionResults store results).logs ∧
      (processSubscribtionResults store results).startedWait = true ∧
      (processSubscribtionResults store results).exit = none := by
  intro store results r m hr herr
  refine ⟨?_, rfl, rfl⟩
  have hfmt : utilFormat "Error: Could not subscribe to collection \"%s\":\n%s" [r.name, m] =
      "Error: Could not subscribe to collection \"" ++ r.name ++ "\":\n" ++ m := by
    have h := utilFormat_two "Error: Could not subscribe to collection \"" "\":\n" "" r.name m
      (by decide) (by decide) (by decide)
    have e1 : ("Error: Could not subscribe to collection \"" ++ "%s" ++ "\":\n" ++ "%s" ++ ""
        : String) = "Error: Could not subscribe to collection \"%s\":\n%s" := by decide
    rw [e1, String.append_empty] at h
    exact h
  simp only [processSubscribtionResults]
  refine List.mem_map.mpr ⟨r, hr, ?_⟩
  simp only [herr]
  rw [hfmt]

/-- Witness for C8: one failing and one succeeding subscription; the
failure is reported with name and message, the wait still starts. -/
theorem c8_subscription_failure_nonfatal_witness :
    (Level.err, "Error: Could not subscribe to collection \"" ++ "cats" ++ "\":\n" ++ "denied")
      ∈ (processSubscribtionResults [] [⟨"cats", some "denied"⟩, ⟨"dogs", none⟩]).logs ∧
    (processSubscribtionResults [] [⟨"cats", some "denied"⟩, ⟨"dogs", none⟩]).startedWait = true ∧
    (processSubscribtionResults [] [⟨"cats", some "denied"⟩, ⟨"dogs", none⟩]).exit = none :=
  c8_subscription_failure_nonfatal [] [⟨"cats", some "denied"⟩, ⟨"dogs", none⟩]
    ⟨"cats", some "denied"⟩ "denied" (by decide) rfl

/-! Lemmas about the write phase. -/

theorem asyncMap_no_error (comps : List Completion) (h : ∀ c ∈ comps, c.result = none) :
    asyncMapFinishAt comps = comps.length ∧ asyncMapFinishErr comps = none := by
  induction comps with
  | nil => exact ⟨rfl, rfl⟩
  | cons c rest ih =>
    have hc : c.result = none := h c (List.mem_cons_self _ _)
    have hrest := ih (fun x hx => h x (List.mem_cons_of_mem _ hx))
    constructor
    · simp only [asyncMapFinishAt, hc, Option.isSome_none, Bool.false_eq_true, if_false,
        hrest.1, List.length_cons]
      omega
    · simp only [asyncMapFinishErr, hc]
      exact hrest.2

/-- C2 amended: every destination's write is issued before any completes
(so a single failure cannot prevent the remaining destinations from being
written) and the connection is always closed by finish; when no write
errs, finish runs only after all completions; but a write error is handed
to finish — which prints it through console.log — at the moment the first
failing write completes, possibly before the remaining writes complete,
not only after all destination writes complete. -/
theorem c2_write_phase_amended :
    ∀ (store : Store) (mapping : Mapping) (comps : List Completion),
      (∀ e ∈ mapping, e.1 ∈ (runWritePhase store mapping comps).issuedPaths) ∧
      (runWritePhase store mapping comps).closed = true ∧
      ((∀ c ∈ comps, c.result = none) →
        (runWritePhase store mapping comps).completionsWhenFinishRan = comps.length ∧
        (runWritePhase store mapping comps).finishErr = none) ∧
      (∀ msg, (runWritePhase store mapping comps).finishErr = some msg →
        (Level.plain, msg) ∈ (runWritePhase store mapping comps).finishLogs) := by
  intro store mapping comps
  refine ⟨?_, ?_, ?_, ?_⟩
  · intro e he
    exact List.mem_map_of_mem _ he
  · show (finish (asyncMapFinishErr comps)).2 = true
    cases asyncMapFinishErr comps <;> rfl
  · intro h
    exact asyncMap_no_error comps h
  · intro msg hmsg
    show (Level.plain, msg) ∈ (finish (asyncMapFinishErr comps)).1
    have he : asyncMapFinishErr comps = some msg := hmsg
    rw [he]
    simp [finish]

/-- C2 counterexample: two destinations where the failing write completes
first; finish (which reports the error) runs after one of the two
completions, before all destination writes complete — refuting that
errors are reported only after all writes complete — although the second
write was already issued and the connection is still closed. -/
theorem c2_early_report_counterexample :
    (runWritePhase [] [(some "a.json", ["cats"]), (some "b.json", ["dogs"])]
        [⟨some "a.json", some "EACCES"⟩, ⟨some "b.json", none⟩]).completionsWhenFinishRan = 1 ∧
    (1 : Nat) < 2 ∧
    (runWritePhase [] [(some "a.json", ["cats"]), (some "b.json", ["dogs"])]
        [⟨some "a.json", some "EACCES"⟩, ⟨some "b.json", none⟩]).finishErr = some "EACCES" ∧
    some "b.json" ∈ (runWritePhase [] [(some "a.json", ["cats"]), (some "b.json", ["dogs"])]
        [⟨some "a.json", some "EACCES"⟩, ⟨some "b.json", none⟩]).issuedPaths ∧
    (runWritePhase [] [(some "a.json", ["cats"]), (some "b.json", ["dogs"])]
        [⟨some "a.json", some "EACCES"⟩, ⟨some "b.json", none⟩]).closed = true :=
  ⟨rfl, by decide, rfl, by decide, rfl⟩

/-- Witness for C2: a single error-free completion; finish runs after all
(one) completions with no error. -/
theorem c2_write_phase_amended_witness :
    (runWritePhase [] [(some "a.json", ["cats"])]
        [⟨some "a.json", none⟩]).completionsWhenFinishRan = 1 ∧
    (runWritePhase [] [(some "a.json", ["cats"])] [⟨some "a.json", none⟩]).finishErr = none :=
  (c2_write_phase_amended [] [(some "a.json", ["cats"])] [⟨some "a.json", none⟩]).2.2.1
    (by decide)

/-- C1 amended: when the initial DDP handshake fails, the connect callback
logs the failure through the info channel only (so the report is printed
only in verbose mode and nothing at all is printed otherwise), subscribes
to nothing and never starts the completion wait (hence no export and no
data written), and does not exit the process — in particular the program
does not terminate with a non-zero exit status from this path. -/
theorem c1_connect_failure_amended :
    ∀ (colls : List String) (e : String),
      (connectCallback colls (some e)).exit = none ∧
      (connectCallback colls (some e)).subscribed = [] ∧
      (connectCallback colls (some e)).startedWait = false ∧
      (connectCallback colls (some e)).logs = [(Level.info, "Error: DDP connection failed")] ∧
      visibleLines false (connectCallback colls (some e)).logs = [] ∧
      visibleLines true (connectCallback colls (some e)).logs = ["Error: DDP connection failed"] :=
  fun _ _ => ⟨rfl, rfl, rfl, rfl, rfl, rfl⟩

/-- C1 counterexample: at a concrete failed handshake no exit status is
set at all, refuting the claimed termination with a non-zero status. -/
theorem c1_no_exit_counterexample :
    (connectCallback ["cats"] (some "ECONNREFUSED")).exit = none ∧
    ¬ ∃ n, (connectCallback ["cats"] (some "ECONNREFUSED")).exit = some n ∧ n ≠ 0 := by
  refine ⟨rfl, ?_⟩
  rintro ⟨n, hn, -⟩
  exact Option.noConfusion hn

/-- C10 amended: with the verbose option unset the informational reporting
function is a no-op, so every info-level message — including the
connection-failure report of the connect callback — produces no output;
messages routed through the error function are still printed, and so are
messages sent directly through console.log (the claim's assertion that
only error-function messages are ever printed is amended accordingly). -/
theorem c10_nonverbose_silencing_amended :
    (∀ (colls : List String) (e : String) (l : LogEntry),
        l ∈ (connectCallback colls (some e)).logs → l.1 = Level.info) ∧
    (∀ (colls : List String) (e : String),
        visibleLines false (connectCallback colls (some e)).logs = []) ∧
    (∀ logs : List LogEntry, (∀ l ∈ logs, l.1 = Level.info) → visibleLines false logs = []) ∧
    (∀ l : LogEntry, l.1 ≠ Level.info → visibleLines false [l] = [l.2]) := by
  refine ⟨?_, ?_, ?_, ?_⟩
  · intro colls e l hl
    simp only [connectCallback, List.mem_singleton] at hl
    rw [hl]
  · intro colls e
    rfl
  · intro logs h
    induction logs with
    | nil => rfl
    | cons l rest ih =>
      obtain ⟨lv, ls⟩ := l
      have h1 : lv = Level.info := h (lv, ls) (List.mem_cons_self _ _)
      subst h1
      have h2 := ih (fun x hx => h x (List.mem_cons_of_mem _ hx))
      show visibleLines false rest = []
      exact h2
  · intro l hl
    obtain ⟨lv, ls⟩ := l
    cases lv with
    | info => exact absurd rfl hl
    | err => rfl
    | plain => rfl

/-- C10 counterexample: with verbose off, finish's write-error report is
still printed even though it is not routed through the error function (it
goes through plain console.log), refuting that only error-function
messages are ever printed in non-verbose mode. -/
theorem c10_plain_log_prints_counterexample :
    visibleLines false (finish (some "EACCES")).1 =
      ["An error occured during saving of files:", "EACCES"] ∧
    (∀ l ∈ (finish (some "EACCES")).1, l.1 ≠ Level.err) :=
  ⟨rfl, by decide⟩

/-- Witness for C10: an info entry is silenced in non-verbose mode while
an error entry is printed. -/
theorem c10_nonverbose_silencing_amended_witness :
    visibleLines false [(Level.info, "DDP connection was successful")] = [] ∧
    visibleLines false [(Level.err, "Error: boom")] = ["Error: boom"] :=
  ⟨c10_nonverbose_silencing_amended.2.2.1 [(Level.info, "DDP connection was successful")]
      (by decide),
   c10_nonverbose_silencing_amended.2.2.2 (Level.err, "Error: boom") (by decide)⟩

end DdpDump
